import Mathlib

/-!
Verification of the qutebrowser session subsystem
(qutebrowser/misc/sessions.py, with the history serializer exercised by
qutebrowser/test/browser/test_tabhistory.py).

The embedding is shallow: the pure core of each Python function is a Lean
function over explicit data; the mutable application state touched by load
is threaded explicitly; Python exceptions become Except values whose
constructors record the Python exception class that would be raised.
Python strings that only ever hold ASCII bytes or byte strings are List Nat
(code points / byte values); path names and titles are Lean String.
-/

set_option autoImplicit false

deriving instance DecidableEq for Except

namespace Sessions

/-- A scroll position, the integer pair stored under the scroll-pos key
(QPoint with x and y). -/
structure Pos where
  x : Int
  y : Int
deriving DecidableEq

/-- A Python user-data mapping as it occurs in this module: the zoom and
scroll-pos keys are each independently present or absent. The zoom factor
is only ever copied verbatim, never computed with, so its carrier type is
irrelevant; Int stands in for the Python float. -/
structure UserDataDict where
  zoom : Option Int
  scrollPos : Option Pos
deriving DecidableEq

/-- The Python exception classes this module can raise below the session
layer. Each carries its message text. -/
inductive PyExc where
  | osError (msg : String)
  | unicodeDecodeError (msg : String)
  | unicodeEncodeError (msg : String)
  | yamlError (msg : String)
  | valueError (msg : String)
  | keyError (msg : String)
  | qtValueError (msg : String)
deriving DecidableEq

/-- Exceptions as they cross the session store and the command layer.
sessionNotFound models SessionNotFoundError (a subclass of SessionError),
sessionError models SessionError wrapping a lower-level cause, raw models
a lower-level Python exception escaping unwrapped, commandError models
cmdexc.CommandError produced by the command layer. -/
inductive Err where
  | sessionNotFound (path : String)
  | sessionError (cause : PyExc)
  | raw (e : PyExc)
  | commandError (msg : String)
deriving DecidableEq

/-- Membership in the Python class OSError: of the exceptions modelled
here only a raw OSError is one; SessionError and SessionNotFoundError
derive from Exception, not OSError. -/
def isOSErrorExc : Err → Bool
  | .raw (.osError _) => true
  | _ => false

/-- Membership in the Python class SessionError: SessionNotFoundError is a
subclass of SessionError, so both count. -/
def isSessionErrorExc : Err → Bool
  | .sessionNotFound _ => true
  | .sessionError _ => true
  | _ => false

/-- Membership in the Python class SessionNotFoundError. -/
def isSessionNotFoundExc : Err → Bool
  | .sessionNotFound _ => true
  | _ => false

/-! ## Filesystem model and path resolution (sessions.py lines 59-77) -/

/-- The ambient filesystem and standard-directory state consulted by
_get_session_path: os.path.expanduser, os.path.exists, and
standarddir.get(QStandardPaths.DataLocation). -/
structure Fs where
  expanduser : String → String
  pathExists : String → Bool
  dataDir : String

/-- os.path.isabs on a POSIX path: the path starts with a slash. -/
def isabs (s : String) : Bool := s.data.head? == some '/'

/-- os.path.join of two POSIX path components: an absolute second
component discards the first. -/
def joinPath (a b : String) : String := if isabs b then b else a ++ "/" ++ b

/-- _get_session_path (sessions.py lines 59-77): an absolute expanded name
is returned as is when existence checking is off or the file exists;
otherwise the original name plus the .yml suffix is resolved against the
managed session directory, and with existence checking on a missing file
raises SessionNotFoundError carrying the resolved path. -/
def get_session_path (fs : Fs) (name : String) (check_exists : Bool) :
    Except Err String :=
  let base_path := joinPath fs.dataDir "sessions"
  let path := fs.expanduser name
  if isabs path && (!check_exists || fs.pathExists path) then
    .ok path
  else
    let path2 := joinPath base_path (name ++ ".yml")
    if check_exists && !(fs.pathExists path2) then
      .error (.sessionNotFound path2)
    else
      .ok path2

/-! ## URL codec (sessions.py lines 97-100 and 159-161) -/

/-- The rendering engine URL type, modelled from the spec: an opaque URI
value represented by its fully encoded form, the ASCII percent-encoded
byte string that url().toEncoded() yields and QUrl.fromEncoded parses
back. The collaborator contract makes toEncoded and fromEncoded mutually
inverse, so the type is carried by the encoded bytes themselves. -/
structure QUrl where
  encoded : List Nat
deriving DecidableEq

/-- QUrl.fromEncoded: parse a fully encoded byte string back into a URL
value. -/
def QUrl.fromEncoded (bs : List Nat) : QUrl := ⟨bs⟩

/-- Python bytes.decode applied with the ascii codec: the identity on byte
values below 128, UnicodeDecodeError otherwise (sessions.py line 98). -/
def decodeAscii (bs : List Nat) : Except PyExc (List Nat) :=
  if bs.all (· < 128) then .ok bs
  else .error (.unicodeDecodeError "ascii codec cannot decode byte")

/-- Python str.encode applied with the ascii codec: the identity on code
points below 128, UnicodeEncodeError otherwise (sessions.py line 160). -/
def encodeAscii (s : List Nat) : Except PyExc (List Nat) :=
  if s.all (· < 128) then .ok s
  else .error (.unicodeEncodeError "ascii codec cannot encode character")

/-- The stored form of one URL as written by save: the ASCII string
obtained by decoding the encoded URL bytes. -/
def urlStore (u : QUrl) : Except PyExc (List Nat) := decodeAscii u.encoded

/-- The load side of the URL pair: re-encode the stored ASCII string to
bytes and parse them with QUrl.fromEncoded. -/
def urlRestore (s : List Nat) : Except PyExc QUrl :=
  match encodeAscii s with
  | .error e => .error e
  | .ok bs => .ok (QUrl.fromEncoded bs)

/-! ## Stored document model (the YAML written by save, read by load) -/

/-- One stored history entry: url (ASCII percent-encoded string), title,
and the active key, present only when true; a read through
histentry.get with default False makes absence and false coincide. -/
structure ItemData where
  url : List Nat
  title : String
  active : Bool
deriving DecidableEq

/-- One stored tab: the ordered history entries plus the optional
tab-level zoom and scroll-pos keys. -/
structure TabData where
  history : List ItemData
  zoom : Option Int
  scrollPos : Option Pos
deriving DecidableEq

/-- One stored window: the opaque geometry byte blob plus the tab list. -/
structure WinData where
  geometry : List Nat
  tabs : List TabData
deriving DecidableEq

/-- The root of the stored document: the ordered window list. -/
structure SessionData where
  windows : List WinData
deriving DecidableEq

/-! ## Live state captured by save (sessions.py lines 86-115) -/

/-- One live QWebHistoryItem as save reads it: the encoded URL bytes from
url().toEncoded(), the title, the optional user data, and validity as
checked by qtutils.ensure_valid, which raises a Qt value error on an
invalid item. -/
structure QWebHistoryItem where
  urlEncoded : List Nat
  title : String
  userData : Option UserDataDict
  isValid : Bool
deriving DecidableEq

/-- One live tab as save reads it: the history items, the index Qt
reports as current, and the live view zoom factor and scroll position
used by the legacy fallback. -/
structure LiveTab where
  items : List QWebHistoryItem
  currentItemIndex : Nat
  zoomFactor : Int
  scrollPosition : Pos
deriving DecidableEq

/-- One live window as save reads it: the opaque geometry bytes from
saveGeometry() and the open tabs in widget order. -/
structure LiveWindow where
  geometry : List Nat
  tabs : List LiveTab
deriving DecidableEq

/-- The body of the per-item loop of save (sessions.py lines 95-113),
run left to right over the history items with their indices. Each item is
validity-checked, its URL ASCII-decoded, its stored record gets active set
exactly when its index equals the current index; the tab-level zoom and
scroll-pos keys are written from the live view when the current item
carries no user data, and from the user data of any item that carries one
(a missing zoom or scroll-pos key inside carried user data raises
KeyError at the reads on lines 111-112). -/
def encodeTabLoop (cur : Nat) (lz : Int) (lp : Pos) :
    Nat → List QWebHistoryItem → TabData → Except PyExc TabData
  | _, [], acc => .ok acc
  | idx, it :: rest, acc =>
    if it.isValid = false then .error (.qtValueError "invalid history item") else
    match decodeAscii it.urlEncoded with
    | .error e => .error e
    | .ok url =>
      let base : ItemData := { url := url, title := it.title, active := false }
      let step :=
        if cur = idx then
          ({ base with active := true },
           match it.userData with
           | none => { acc with zoom := some lz, scrollPos := some lp }
           | some _ => acc)
        else (base, acc)
      let acc2 : TabData :=
        { step.2 with history := step.2.history ++ [step.1] }
      match it.userData with
      | none => encodeTabLoop cur lz lp (idx + 1) rest acc2
      | some d =>
        match d.scrollPos, d.zoom with
        | some p, some z =>
          encodeTabLoop cur lz lp (idx + 1) rest
            { acc2 with zoom := some z, scrollPos := some p }
        | _, _ => .error (.keyError "zoom or scroll-pos missing in user data")

/-- The per-tab part of save: run the item loop over the full history,
starting from the fresh tab record built on line 93. -/
def encodeTab (tab : LiveTab) : Except PyExc TabData :=
  encodeTabLoop tab.currentItemIndex tab.zoomFactor tab.scrollPosition 0 tab.items
    { history := [], zoom := none, scrollPos := none }

/-- The tab list a window contributes to the document. The statement
win_data["tabs"].append(tab_data) on sessions.py line 114 is indented
inside the per-item loop, so the same mutable tab dict is appended once
per history item; when the document is serialized every alias shows the
final state of that dict, hence each tab contributes its final record
replicated once per history item (and a tab with an empty history
contributes nothing). -/
def encodeWindowTabs : List LiveTab → Except PyExc (List TabData)
  | [] => .ok []
  | t :: ts =>
    match encodeTab t with
    | .error e => .error e
    | .ok td =>
      match encodeWindowTabs ts with
      | .error e => .error e
      | .ok rest => .ok (List.replicate t.items.length td ++ rest)

/-- The per-window part of save (sessions.py lines 90-115): geometry blob
plus the tab list. -/
def encodeWindow (w : LiveWindow) : Except PyExc WinData :=
  match encodeWindowTabs w.tabs with
  | .error e => .error e
  | .ok tds => .ok { geometry := w.geometry, tabs := tds }

/-- The pure document-building core of save (sessions.py lines 85-115):
the windows of the registry in enumeration order, each encoded in turn.
File writing and YAML dumping are outside this core; a failure inside the
loop (invalid item, URL decode, user-data KeyError) escapes save
unwrapped, since the try on line 116 only surrounds the dump. -/
def save : List LiveWindow → Except PyExc SessionData
  | [] => .ok { windows := [] }
  | w :: ws =>
    match encodeWindow w with
    | .error e => .error e
    | .ok wd =>
      match save ws with
      | .error e => .error e
      | .ok rest => .ok { windows := wd :: rest.windows }

/-! ## History serializer model (qutebrowser/browser/tabhistory.py)

The module tabhistory is not part of the sources provided; only its test
suite (test_tabhistory.py) and its call sites in sessions.py are. The
definitions below are therefore modelled from the spec and pinned by the
tests in src.
-/

/-- One TabHistoryItem as constructed by load (sessions.py lines
159-161): URL, title, active flag and the user-data mapping. The variant
of the constructor exercised by test_tabhistory.py also carries an
original URL; sessions.py never passes one, so it is omitted here. -/
structure TabHistoryItem where
  url : QUrl
  title : String
  active : Bool
  userData : Option UserDataDict
deriving DecidableEq

/-- The number of items flagged active in a list. -/
def activeCount (items : List TabHistoryItem) : Nat :=
  (items.filter (fun it => it.active)).length

/-- Modelled from the spec: tabhistory.serialize, absent from src. Spec
section 4.2 requires exactly one active entry and a loud failure when the
live history reports none or multiple; the tests in src pin the edge
cases: two active items raise ValueError (test_two_active_items), a
nonempty history with no active item raises ValueError
(test_no_active_item), and an empty history serializes successfully with
current index 0 (test_empty). The result models the serialized stream by
the item list together with the current item index. -/
def serialize (items : List TabHistoryItem) :
    Except PyExc (List TabHistoryItem × Nat) :=
  if 2 ≤ activeCount items then
    .error (.valueError "Multiple active items found")
  else if !items.isEmpty && activeCount items == 0 then
    .error (.valueError "No active item found")
  else
    .ok (items, items.findIdx (fun it => it.active))

/-- Modelled from the spec: the injection interface
new_tab.page().load_history(entries) used on sessions.py line 164, absent
from src. It serializes the entries into the fresh tab, so it fails with
exactly the ValueError of serialize and otherwise makes the entries the
tab history. -/
def load_history (entries : List TabHistoryItem) :
    Except PyExc (List TabHistoryItem) :=
  match serialize entries with
  | .error e => .error e
  | .ok _ => .ok entries

/-! ## Load (sessions.py lines 125-166) -/

/-- The body of the per-entry loop of load (sessions.py lines 151-162):
a user-data mapping is built from the tab-level zoom and scroll-pos keys
whenever they are present — for every entry, active or not — the active
flag is read with default false, the stored URL is ASCII-encoded (an
uncaught UnicodeEncodeError on a non-ASCII stored string) and parsed with
QUrl.fromEncoded, and the entry is constructed. -/
def mkEntry (td : TabData) (he : ItemData) : Except PyExc TabHistoryItem :=
  let user_data : UserDataDict := { zoom := td.zoom, scrollPos := td.scrollPos }
  match encodeAscii he.url with
  | .error e => .error e
  | .ok bs =>
    .ok { url := QUrl.fromEncoded bs, title := he.title, active := he.active,
          userData := some user_data }

/-- The entry loop of load run over a list of stored entries. -/
def mkEntriesGo (td : TabData) : List ItemData → Except PyExc (List TabHistoryItem)
  | [] => .ok []
  | he :: rest =>
    match mkEntry td he with
    | .error e => .error e
    | .ok e =>
      match mkEntriesGo td rest with
      | .error e2 => .error e2
      | .ok l => .ok (e :: l)

/-- All entries load builds for one stored tab. -/
def mkEntries (td : TabData) : Except PyExc (List TabHistoryItem) :=
  mkEntriesGo td td.history

/-- A live tab after load: the ordered history entries injected into it,
empty while freshly opened or when injection failed. -/
abbrev LTab := List TabHistoryItem

/-- A live window after load: its tabs in creation order. -/
abbrev LWin := List LTab

/-- The mutable application state load mutates through tabopen and
MainWindow.spawn: the window registry in creation order, plus the index
of the last-focused window if one exists (objreg raises NoWindow when
there is none). -/
structure AppState where
  windows : List LWin
  lastFocused : Option Nat
deriving DecidableEq

/-- The per-tab loop of load (sessions.py lines 148-166) acting on one
window: for each stored tab a fresh empty tab is opened first, then the
entries are built (an entry failure escapes raw and the opened tab stays
behind empty), then load_history injects them; only a ValueError from the
injection is re-raised as SessionError (line 165), and on success the
opened tab holds the entries. -/
def loadTabs : List TabData → LWin → LWin × Except Err Unit
  | [], tabs => (tabs, .ok ())
  | td :: rest, tabs =>
    let opened := tabs ++ [[]]
    match mkEntries td with
    | .error e => (opened, .error (.raw e))
    | .ok entries =>
      match load_history entries with
      | .error pe =>
        (opened, .error (match pe with
          | .valueError m => .sessionError (.valueError m)
          | _ => .raw pe))
      | .ok hist => loadTabs rest (tabs ++ [hist])

/-- The window the first iteration of load reuses, if any: the
last-focused window when one exists (sessions.py lines 137-142);
otherwise, and for every later window, a new window is spawned. -/
def reuseWindow (st : AppState) : Option Nat :=
  match st.lastFocused with
  | some i => if i < st.windows.length then some i else none
  | none => none

/-- The per-window loop of load (sessions.py lines 136-166): the first
window reuses the last-focused window when one exists, every other window
is spawned from the stored geometry; the tabs of each stored window are
then loaded into it. On an error the partially mutated state is kept —
the loop simply stops. -/
def loadWins : List WinData → Bool → AppState → AppState × Except Err Unit
  | [], _, st => (st, .ok ())
  | w :: ws, isFirst, st =>
    match (if isFirst then reuseWindow st else none) with
    | some i =>
      let win := st.windows.getD i []
      let step := loadTabs w.tabs win
      let st2 : AppState := { st with windows := st.windows.set i step.1 }
      match step.2 with
      | .ok _ => loadWins ws false st2
      | .error e => (st2, .error e)
    | none =>
      let step := loadTabs w.tabs []
      let st2 : AppState := { st with windows := st.windows ++ [step.1] }
      match step.2 with
      | .ok _ => loadWins ws false st2
      | .error e => (st2, .error e)

/-- The document-consuming core of load. -/
def loadDoc (st : AppState) (doc : SessionData) : AppState × Except Err Unit :=
  loadWins doc.windows true st

/-- The filesystem as load sees it: path resolution state plus reading a
session file, which models open with UTF-8 decoding followed by
yaml.load producing the typed document. -/
structure LoadFs extends Fs where
  readDoc : String → Except PyExc SessionData

/-- The exception classes caught by the read guard of load (sessions.py
line 132): OSError, UnicodeDecodeError, yaml.YAMLError. -/
def readCaught : PyExc → Bool
  | .osError _ => true
  | .unicodeDecodeError _ => true
  | .yamlError _ => true
  | _ => false

/-- load (sessions.py lines 125-166): resolve the name requiring
existence, read and parse the file wrapping exactly the caught read
failures as SessionError, then consume the document against the live
state. -/
def load (fs : LoadFs) (st : AppState) (name : String) :
    AppState × Except Err Unit :=
  match get_session_path fs.toFs name true with
  | .error e => (st, .error e)
  | .ok path =>
    match fs.readDoc path with
    | .error e => (st, .error (if readCaught e then .sessionError e else .raw e))
    | .ok doc => loadDoc st doc

/-! ## Delete and its command wrapper (sessions.py lines 169-173, 228-238) -/

/-- The filesystem as delete sees it: path resolution state plus the
outcome of os.remove on each path, some message meaning an OSError with
that message. -/
structure DelFs extends Fs where
  removeResult : String → Option String

/-- delete (sessions.py lines 169-173): resolve the name requiring
existence, then os.remove — whose OSError, if any, escapes unwrapped. -/
def delete (fs : DelFs) (name : String) : Except Err Unit :=
  match get_session_path fs.toFs name true with
  | .error e => .error e
  | .ok path =>
    match fs.removeResult path with
    | some msg => .error (.raw (.osError msg))
    | none => .ok ()

/-- session_delete (sessions.py lines 228-238): the command wrapper
catches OSError — and only OSError — rendering it as a CommandError;
every other exception, including SessionNotFoundError, escapes. -/
def session_delete (fs : DelFs) (name : String) : Except Err Unit :=
  match delete fs name with
  | .ok _ => .ok ()
  | .error e =>
    if isOSErrorExc e then
      .error (.commandError "Error while deleting session")
    else .error e

/-! ## Specification-side helpers for the amended claims -/

/-- The sequence of writes save performs to the tab-level zoom and
scroll-pos keys while scanning the items left to right: an item carrying
user data writes that payload, the current item writes the live view
state when it carries none, every other item writes nothing. The final
key values are the last write, if any. -/
def auxWrites (cur : Nat) (lz : Int) (lp : Pos) :
    Nat → List QWebHistoryItem → List (Option Int × Option Pos)
  | _, [] => []
  | idx, it :: rest =>
    (match it.userData with
     | some d => [(d.zoom, d.scrollPos)]
     | none => if cur = idx then [(some lz, some lp)] else []) ++
    auxWrites cur lz lp (idx + 1) rest

/-- The session file a bare name resolves to, spelled as the spec does:
the managed session directory joined with the name plus the .yml
suffix. -/
def sessionFilePath (fs : Fs) (name : String) : String :=
  fs.dataDir ++ "/sessions/" ++ name ++ ".yml"

/-! ## Concrete instances used by the claim theorems -/

/-- The url bytes, title and active flag of every entry of every tab of
every window of a loaded state, the data the round-trip claim compares. -/
def stateShape (st : AppState) : List (List (List (List Nat × String × Bool))) :=
  st.windows.map (fun w => w.map (fun t =>
    t.map (fun e => (e.url.encoded, e.title, e.active))))

/-- One window holding one tab with a two-entry history, the first entry
current; both entries are valid, ASCII and carry no user data. -/
def c1win : LiveWindow :=
  { geometry := [], tabs := [
    { items := [⟨[97], "a", none, true⟩, ⟨[98], "b", none, true⟩],
      currentItemIndex := 0, zoomFactor := 1, scrollPosition := ⟨0, 0⟩ }] }

/-- Encode c1win with save, then decode the document into an empty
application state, and report the shape of the loaded state. -/
def c1pipeline : Option (List (List (List (List Nat × String × Bool)))) :=
  match save [c1win] with
  | .ok doc => some (stateShape (loadDoc ⟨[], none⟩ doc).1)
  | .error _ => none

/-- One window holding one tab with a two-entry history, first entry
current, for the tab-count claim. -/
def c2win : LiveWindow :=
  { geometry := [7], tabs := [
    { items := [⟨[104], "h", none, true⟩, ⟨[105], "i", none, true⟩],
      currentItemIndex := 0, zoomFactor := 1, scrollPosition := ⟨0, 0⟩ }] }

/-- A stored tab carrying tab-level zoom and scroll-pos, whose first
entry is active and whose second is not. -/
def c3tab : TabData :=
  { history := [⟨[97], "a", true⟩, ⟨[98], "b", false⟩],
    zoom := some 3, scrollPos := some ⟨1, 2⟩ }

/-- The entries load builds for c3tab. -/
def c3list : List TabHistoryItem :=
  [⟨⟨[97]⟩, "a", true, some ⟨some 3, some ⟨1, 2⟩⟩⟩,
   ⟨⟨[98]⟩, "b", false, some ⟨some 3, some ⟨1, 2⟩⟩⟩]

/-- A single non-active history item, as in test_no_active_item. -/
def c4item : TabHistoryItem := ⟨⟨[]⟩, "", false, none⟩

/-- A live tab whose current entry (index 0) carries no user data while a
later entry carries an explicit payload; the live view zoom is 2, the
payload zoom is 9. -/
def c5tab : LiveTab :=
  { items := [
      ⟨[97], "a", none, true⟩,
      ⟨[98], "b", some ⟨some 9, some ⟨7, 8⟩⟩, true⟩],
    currentItemIndex := 0, zoomFactor := 2, scrollPosition := ⟨0, 0⟩ }

/-- A live tab with a single current entry carrying no user data. -/
def c5wtab : LiveTab :=
  { items := [⟨[97], "a", none, true⟩],
    currentItemIndex := 0, zoomFactor := 4, scrollPosition := ⟨5, 6⟩ }

/-- The tab record save produces for c5wtab. -/
def c5wtd : TabData :=
  { history := [⟨[97], "a", true⟩], zoom := some 4, scrollPos := some ⟨5, 6⟩ }

/-- A filesystem with nothing on disk, identity home expansion and data
directory /data. -/
def c6fs : Fs :=
  { expanduser := fun n => n, pathExists := fun _ => false, dataDir := "/data" }

/-- A filesystem where exactly the session file x.yml exists and every
removal fails with a permission error. -/
def c7fs : DelFs :=
  { expanduser := fun n => n,
    pathExists := fun p => p == "/d/sessions/x.yml",
    dataDir := "/d", removeResult := fun _ => some "Permission denied" }

/-- A filesystem with nothing on disk, for the not-found half of the
delete contract. -/
def c7fsEmpty : DelFs :=
  { expanduser := fun n => n, pathExists := fun _ => false,
    dataDir := "/d", removeResult := fun _ => none }

/-- The example URL of the spec, http://example.com/%E2%80%A6, as the
encoded byte string toEncoded yields. -/
def c8url : QUrl := ⟨"http://example.com/%E2%80%A6".data.map Char.toNat⟩

/-- A filesystem where every path exists and reading yields a YAML parse
error. -/
def c9fs : LoadFs :=
  { expanduser := fun n => n, pathExists := fun _ => true, dataDir := "/d",
    readDoc := fun _ => .error (.yamlError "bad document") }

/-- A stored tab with a single active entry: loads fine. -/
def c10tdA : TabData :=
  { history := [⟨[97], "a", true⟩], zoom := none, scrollPos := none }

/-- A stored tab with two active entries: injection fails. -/
def c10tdB : TabData :=
  { history := [⟨[98], "b", true⟩, ⟨[99], "c", true⟩],
    zoom := none, scrollPos := none }

/-- The single entry loaded for c10tdA. -/
def c10eA : TabHistoryItem := ⟨⟨[97]⟩, "a", true, some ⟨none, none⟩⟩

/-- The entries built for c10tdB before the failing injection. -/
def c10entsB : List TabHistoryItem :=
  [⟨⟨[98]⟩, "b", true, some ⟨none, none⟩⟩, ⟨⟨[99]⟩, "c", true, some ⟨none, none⟩⟩]

/-! ## Helper lemmas -/

theorem encodeAscii_ok (s t : List Nat) (h : encodeAscii s = .ok t) : t = s := by
  unfold encodeAscii at h
  by_cases hall : s.all (fun c => c < 128) = true
  · rw [if_pos hall] at h
    exact (Except.ok.injEq _ _ ▸ h).symm
  · rw [if_neg hall] at h
    cases h

theorem mkEntry_shape (td : TabData) (he : ItemData) (e : TabHistoryItem)
    (h : mkEntry td he = .ok e) :
    e = ⟨QUrl.fromEncoded he.url, he.title, he.active,
         some ⟨td.zoom, td.scrollPos⟩⟩ := by
  unfold mkEntry at h
  cases henc : encodeAscii he.url with
  | error e2 => rw [henc] at h; cases h
  | ok bs =>
    rw [henc] at h
    have hbs := encodeAscii_ok _ _ henc
    subst hbs
    exact (Except.ok.injEq _ _ ▸ h).symm

theorem mkEntriesGo_shape (td : TabData) :
    ∀ (hes : List ItemData) (l : List TabHistoryItem),
      mkEntriesGo td hes = .ok l →
      l.map (fun e => e.userData) =
        hes.map (fun _ => some ⟨td.zoom, td.scrollPos⟩) ∧
      l.map (fun e => e.active) = hes.map (fun he => he.active) := by
  intro hes
  induction hes with
  | nil =>
    intro l h
    unfold mkEntriesGo at h
    cases h
    exact ⟨rfl, rfl⟩
  | cons he rest ih =>
    intro l h
    unfold mkEntriesGo at h
    cases hme : mkEntry td he with
    | error e2 => rw [hme] at h; cases h
    | ok e =>
      rw [hme] at h
      cases hgo : mkEntriesGo td rest with
      | error e2 => rw [hgo] at h; cases h
      | ok l2 =>
        rw [hgo] at h
        cases h
        obtain ⟨h1, h2⟩ := ih l2 hgo
        have he2 := mkEntry_shape td he e hme
        subst he2
        exact ⟨by simpa using h1, by simpa using h2⟩

theorem strDataAppend (a b : String) : (a ++ b).data = a.data ++ b.data := rfl

theorem stringDataEq (a b : String) (h : a.data = b.data) : a = b := by
  cases a
  cases b
  exact congrArg String.mk h

theorem isabs_append_yml (name : String) : isabs (name ++ ".yml") = isabs name := by
  unfold isabs
  have hd : (name ++ ".yml").data = name.data ++ ['.', 'y', 'm', 'l'] := rfl
  rw [hd]
  rcases hnd : name.data with _ | ⟨c, cs⟩
  · rfl
  · rfl

theorem joinPath_sessions (fs : Fs) (name : String) (h : isabs name = false) :
    joinPath (joinPath fs.dataDir "sessions") (name ++ ".yml") =
      sessionFilePath fs name := by
  unfold joinPath sessionFilePath
  rw [isabs_append_yml, h]
  have h1 : isabs "sessions" = false := rfl
  rw [h1]
  simp only [Bool.false_eq_true, if_false]
  apply stringDataEq
  simp only [strDataAppend, List.append_assoc]
  rfl

theorem get_session_path_error (fs : Fs) (name : String) (c : Bool) (e : Err)
    (h : get_session_path fs name c = .error e) : ∃ p, e = .sessionNotFound p := by
  simp only [get_session_path] at h
  by_cases h1 : (isabs (fs.expanduser name) &&
      (!c || fs.pathExists (fs.expanduser name))) = true
  · rw [if_pos h1] at h; cases h
  · rw [if_neg h1] at h
    by_cases h2 : (c && !fs.pathExists
        (joinPath (joinPath fs.dataDir "sessions") (name ++ ".yml"))) = true
    · rw [if_pos h2] at h
      injection h with h3
      exact ⟨_, h3.symm⟩
    · rw [if_neg h2] at h; cases h

theorem loadTabs_error_shape :
    ∀ (tds : List TabData) (w : LWin) (e : Err),
      (loadTabs tds w).2 = .error e →
      (∃ m, e = .sessionError (.valueError m)) ∨ (∃ pe, e = .raw pe) := by
  intro tds
  induction tds with
  | nil => intro w e h; simp [loadTabs] at h
  | cons td rest ih =>
    intro w e h
    unfold loadTabs at h
    cases hmk : mkEntries td with
    | error e2 =>
      simp only [hmk] at h
      injection h with h2
      exact Or.inr ⟨e2, h2.symm⟩
    | ok entries =>
      simp only [hmk] at h
      cases hlh : load_history entries with
      | error pe =>
        simp only [hlh] at h
        cases pe with
        | valueError m => injection h with h2; exact Or.inl ⟨m, h2.symm⟩
        | osError m => injection h with h2; exact Or.inr ⟨_, h2.symm⟩
        | unicodeDecodeError m => injection h with h2; exact Or.inr ⟨_, h2.symm⟩
        | unicodeEncodeError m => injection h with h2; exact Or.inr ⟨_, h2.symm⟩
        | yamlError m => injection h with h2; exact Or.inr ⟨_, h2.symm⟩
        | keyError m => injection h with h2; exact Or.inr ⟨_, h2.symm⟩
        | qtValueError m => injection h with h2; exact Or.inr ⟨_, h2.symm⟩
      | ok hist =>
        simp only [hlh] at h
        exact ih _ _ h

theorem loadWins_error_shape :
    ∀ (ws : List WinData) (b : Bool) (st : AppState) (e : Err),
      (loadWins ws b st).2 = .error e →
      (∃ m, e = .sessionError (.valueError m)) ∨ (∃ pe, e = .raw pe) := by
  intro ws
  induction ws with
  | nil => intro b st e h; simp [loadWins] at h
  | cons w rest ih =>
    intro b st e h
    unfold loadWins at h
    cases hr : (if b then reuseWindow st else none) with
    | some i =>
      simp only [hr] at h
      cases hlt : (loadTabs w.tabs (st.windows.getD i [])).2 with
      | error e2 =>
        simp only [hlt] at h
        injection h with h2
        subst h2
        exact loadTabs_error_shape _ _ _ hlt
      | ok u =>
        simp only [hlt] at h
        exact ih _ _ _ h
    | none =>
      simp only [hr] at h
      cases hlt : (loadTabs w.tabs []).2 with
      | error e2 =>
        simp only [hlt] at h
        injection h with h2
        subst h2
        exact loadTabs_error_shape _ _ _ hlt
      | ok u =>
        simp only [hlt] at h
        exact ih _ _ _ h

theorem loadTabs_grows :
    ∀ (tds : List TabData) (acc : LWin), ∃ d, (loadTabs tds acc).1 = acc ++ d := by
  intro tds
  induction tds with
  | nil => intro acc; exact ⟨[], by simp [loadTabs]⟩
  | cons td rest ih =>
    intro acc
    unfold loadTabs
    cases hmk : mkEntries td with
    | error e2 => simp only [hmk]; exact ⟨[[]], rfl⟩
    | ok entries =>
      simp only [hmk]
      cases hlh : load_history entries with
      | error pe => simp only [hlh]; exact ⟨[[]], rfl⟩
      | ok hist =>
        simp only [hlh]
        obtain ⟨d, hd⟩ := ih (acc ++ [hist])
        refine ⟨[hist] ++ d, ?_⟩
        rw [hd, List.append_assoc]

theorem loadTabs_append_ok :
    ∀ (tds1 : List TabData) (acc res : LWin),
      loadTabs tds1 acc = (res, .ok ()) →
      ∀ (tds2 : List TabData), loadTabs (tds1 ++ tds2) acc = loadTabs tds2 res := by
  intro tds1
  induction tds1 with
  | nil =>
    intro acc res h tds2
    unfold loadTabs at h
    injection h with h1 h2
    subst h1
    rfl
  | cons td rest ih =>
    intro acc res h tds2
    rw [List.cons_append]
    unfold loadTabs at h
    conv_lhs => unfold loadTabs
    cases hmk : mkEntries td with
    | error e2 =>
      simp only [hmk, Prod.mk.injEq] at h
      exact absurd h.2 (by simp)
    | ok entries =>
      simp only [hmk] at h ⊢
      cases hlh : load_history entries with
      | error pe =>
        simp only [hlh, Prod.mk.injEq] at h
        exact absurd h.2 (by simp)
      | ok hist =>
        simp only [hlh] at h ⊢
        exact ih _ _ h tds2

theorem loadWins_grows :
    ∀ (ws : List WinData) (b : Bool) (st : AppState), st.lastFocused = none →
      ∃ d, (loadWins ws b st).1.windows = st.windows ++ d := by
  intro ws
  induction ws with
  | nil => intro b st hl; exact ⟨[], by simp [loadWins]⟩
  | cons w rest ih =>
    intro b st hl
    unfold loadWins
    have hr : (if b then reuseWindow st else none) = none := by
      cases b
      · rfl
      · simp [reuseWindow, hl]
    simp only [hr]
    cases hlt : (loadTabs w.tabs []).2 with
    | error e2 =>
      simp only [hlt]
      exact ⟨[(loadTabs w.tabs []).1], rfl⟩
    | ok u =>
      simp only [hlt]
      obtain ⟨d, hd⟩ :=
        ih false { st with windows := st.windows ++ [(loadTabs w.tabs []).1] } hl
      refine ⟨[(loadTabs w.tabs []).1] ++ d, ?_⟩
      rw [hd]
      simp [List.append_assoc]

theorem optLastD_cons {α : Type _} (w d : α) (l : List α) :
    ((w :: l).getLast?).getD d = (l.getLast?).getD w := by
  induction l generalizing w d with
  | nil => rfl
  | cons x l2 ih =>
    rw [List.getLast?_cons_cons]
    exact (ih x d).trans (ih x w).symm

theorem encodeTabLoop_aux (cur : Nat) (lz : Int) (lp : Pos) :
    ∀ (items : List QWebHistoryItem) (idx : Nat) (acc td : TabData),
      encodeTabLoop cur lz lp idx items acc = .ok td →
      (td.zoom, td.scrollPos) =
        ((auxWrites cur lz lp idx items).getLast?).getD (acc.zoom, acc.scrollPos) := by
  intro items
  induction items with
  | nil =>
    intro idx acc td h
    unfold encodeTabLoop at h
    cases h
    rfl
  | cons it rest ih =>
    intro idx acc td h
    unfold encodeTabLoop at h
    by_cases hv : it.isValid = false
    · rw [if_pos hv] at h; cases h
    · rw [if_neg hv] at h
      cases hdec : decodeAscii it.urlEncoded with
      | error e => rw [hdec] at h; cases h
      | ok url =>
        unfold auxWrites
        by_cases hc : cur = idx
        · cases hud : it.userData with
          | none =>
            simp only [hdec, hud, if_pos hc] at h
            simp only [hud, if_pos hc]
            rw [List.singleton_append, optLastD_cons]
            simpa using ih (idx + 1) _ td h
          | some dd =>
            cases hsp : dd.scrollPos with
            | none =>
              simp only [hdec, hud, hsp, if_pos hc] at h
              exact Except.noConfusion h
            | some p =>
              cases hz : dd.zoom with
              | none =>
                simp only [hdec, hud, hsp, hz, if_pos hc] at h
                exact Except.noConfusion h
              | some z =>
                simp only [hdec, hud, hsp, hz, if_pos hc] at h
                simp only [hud, hsp, hz]
                rw [List.singleton_append, optLastD_cons]
                simpa using ih (idx + 1) _ td h
        · cases hud : it.userData with
          | none =>
            simp only [hdec, hud, if_neg hc] at h
            simp only [hud, if_neg hc, List.nil_append]
            simpa using ih (idx + 1) _ td h
          | some dd =>
            cases hsp : dd.scrollPos with
            | none =>
              simp only [hdec, hud, hsp, if_neg hc] at h
              exact Except.noConfusion h
            | some p =>
              cases hz : dd.zoom with
              | none =>
                simp only [hdec, hud, hsp, hz, if_neg hc] at h
                exact Except.noConfusion h
              | some z =>
                simp only [hdec, hud, hsp, hz, if_neg hc] at h
                simp only [hud, hsp, hz]
                rw [List.singleton_append, optLastD_cons]
                simpa using ih (idx + 1) _ td h

/-! ## Claim theorems -/

/-- C1: the claim states that saving and then loading reproduces the same
windows, each holding the same ordered entry list with equal URL, title
and active flag. The code violates this: the tab append on sessions.py
line 114 runs once per history item, so the window c1win with a single
two-entry tab encodes into a document with two tab records, and loading
that document into an empty application state produces one window holding
two tabs of two entries each instead of the original single tab. -/
theorem C1_roundtrip_broken :
    c1win.tabs.length = 1 ∧
    c1pipeline =
      some [[[([97], "a", true), ([98], "b", false)],
             [([97], "a", true), ([98], "b", false)]]] := ⟨rfl, rfl⟩

/-- C2: the claim states that a window with n open tabs encodes to a
window state with exactly n tab records, one per open tab. The code
violates this: c2win has one open tab with two history entries, yet its
encoding contains two tab records (the same final tab dict appended once
per history item by sessions.py line 114). -/
theorem C2_tab_duplication :
    c2win.tabs.length = 1 ∧
    (encodeWindow c2win).map (fun wd => wd.tabs.length) = .ok 2 := by
  decide

/-- C3 counterexample: the claim states that, for a stored tab whose
tab-level zoom and scroll-pos are present, the decoded auxiliary payload
is attached only to the entry marked active and every non-active entry is
reconstructed with no auxiliary payload. Decoding c3tab refutes this: the
second, non-active entry also receives the user-data mapping with the
tab-level zoom 3 and scroll position (1, 2). -/
theorem C3_counterexample :
    (mkEntries c3tab).map (fun l => l.map (fun e => (e.active, e.userData)))
      = .ok [(true, some ⟨some 3, some ⟨1, 2⟩⟩),
             (false, some ⟨some 3, some ⟨1, 2⟩⟩)] := by
  decide

/-- C3 amended: during load, whenever the entry loop of a stored tab
succeeds, the user-data payload built from the tab-level zoom and
scroll-pos fields is attached to every reconstructed entry, active or
not, while the active flags themselves are copied from the stored
entries. -/
theorem C3_aux_attached_to_all_entries (td : TabData) (l : List TabHistoryItem)
    (h : mkEntries td = .ok l) :
    l.map (fun e => e.userData) =
      td.history.map (fun _ => some ⟨td.zoom, td.scrollPos⟩) ∧
    l.map (fun e => e.active) = td.history.map (fun he => he.active) :=
  mkEntriesGo_shape td td.history l h

/-- C3 witness: the amended statement evaluated on the concrete tab
c3tab and its decoded entry list. -/
theorem C3_witness :
    c3list.map (fun e => e.userData) =
      c3tab.history.map (fun _ => some ⟨c3tab.zoom, c3tab.scrollPos⟩) ∧
    c3list.map (fun e => e.active) = c3tab.history.map (fun he => he.active) :=
  C3_aux_attached_to_all_entries c3tab c3list (by decide)

/-- C4 counterexample: the claim states that encoding any tab whose
history reports zero active entries fails. The serializer pinned by
test_empty refutes this: the empty history reports zero active entries
yet serializes successfully, with current index 0. -/
theorem C4_counterexample :
    activeCount [] = 0 ∧ serialize [] = .ok ([], 0) := by
  decide

/-- C4 amended: encoding a tab whose nonempty history reports zero active
entries, or whose history reports more than one active entry, fails with
ValueError rather than silently choosing an entry; only the empty history
is exempt. -/
theorem C4_single_active_invariant (items : List TabHistoryItem)
    (h : (items ≠ [] ∧ activeCount items = 0) ∨ 2 ≤ activeCount items) :
    ∃ m, serialize items = .error (.valueError m) := by
  unfold serialize
  rcases h with ⟨hne, h0⟩ | h2
  · refine ⟨"No active item found", ?_⟩
    rw [if_neg (by omega)]
    rw [if_pos ?_]
    have hemp : items.isEmpty = false := by
      cases items with
      | nil => exact absurd rfl hne
      | cons a l => rfl
    rw [hemp, h0]
    rfl
  · exact ⟨"Multiple active items found", by rw [if_pos h2]⟩

/-- C4 witness: the amended statement evaluated on the single-item
non-active history of test_no_active_item. -/
theorem C4_witness : ∃ m, serialize [c4item] = .error (.valueError m) :=
  C4_single_active_invariant [c4item] (Or.inl ⟨by decide, by decide⟩)

/-- C5 counterexample: the claim states that when the active entry
carries no explicit payload, the tab-level zoom and scroll-pos written by
save equal the live view zoom factor and scroll position. Encoding c5tab
refutes this: its current entry (index 0) carries no user data and the
live zoom is 2, yet a later entry carrying the payload zoom 9 and scroll
position (7, 8) overwrites the tab-level fields afterwards, so the
encoded tab carries that payload, not the live state. -/
theorem C5_counterexample :
    c5tab.currentItemIndex = 0 ∧
    (c5tab.items.map (fun it => it.userData)).head? = some none ∧
    c5tab.zoomFactor = 2 ∧
    (encodeTab c5tab).map (fun td => (td.zoom, td.scrollPos))
      = .ok (some 9, some ⟨7, 8⟩) := by
  decide

/-- C5 amended: the tab-level zoom and scroll-pos of a successfully
encoded tab equal the last write performed while scanning the history in
order, where an entry carrying a payload writes that payload verbatim and
the current entry writes the live view state when it carries none; in
particular the claim holds when the decisive entry is the last writer,
but a later payload-carrying entry overrides it. -/
theorem C5_last_aux_write (tab : LiveTab) (td : TabData)
    (h : encodeTab tab = .ok td) :
    (td.zoom, td.scrollPos) =
      ((auxWrites tab.currentItemIndex tab.zoomFactor tab.scrollPosition
          0 tab.items).getLast?).getD (none, none) := by
  unfold encodeTab at h
  simpa using encodeTabLoop_aux tab.currentItemIndex tab.zoomFactor
    tab.scrollPosition tab.items 0 _ td h

/-- C5 witness: the amended statement evaluated on the concrete tab
c5wtab, whose single current entry carries no payload, and its encoding
c5wtd. -/
theorem C5_witness :
    (c5wtd.zoom, c5wtd.scrollPos) =
      ((auxWrites c5wtab.currentItemIndex c5wtab.zoomFactor
          c5wtab.scrollPosition 0 c5wtab.items).getLast?).getD (none, none) :=
  C5_last_aux_write c5wtab c5wtd (by decide)

/-- C6: path resolution resolves a bare name (one whose expansion is not
absolute) to the managed session directory joined with the name plus the
.yml suffix when existence checking is off or the file exists; a name
expanding to an absolute path is returned verbatim when existence
checking is off or that path exists; and a bare name under existence
checking whose resolved file is absent fails with SessionNotFoundError
carrying the resolved path. -/
theorem C6_path_resolution (fs : Fs) (name : String) (check_exists : Bool) :
    (isabs (fs.expanduser name) = false → isabs name = false →
      (check_exists = false ∨ fs.pathExists (sessionFilePath fs name) = true) →
      get_session_path fs name check_exists = .ok (sessionFilePath fs name)) ∧
    (isabs (fs.expanduser name) = true →
      (check_exists = false ∨ fs.pathExists (fs.expanduser name) = true) →
      get_session_path fs name check_exists = .ok (fs.expanduser name)) ∧
    (isabs (fs.expanduser name) = false → isabs name = false →
      check_exists = true → fs.pathExists (sessionFilePath fs name) = false →
      get_session_path fs name check_exists =
        .error (.sessionNotFound (sessionFilePath fs name))) := by
  refine ⟨?_, ?_, ?_⟩
  · intro habs hbare hex
    simp only [get_session_path]
    rw [joinPath_sessions fs name hbare, habs]
    rcases hex with hc | he
    · subst hc; simp
    · rw [he]; simp
  · intro habs hex
    simp only [get_session_path]
    rw [habs]
    rcases hex with hc | he
    · subst hc; simp
    · rw [he]; simp
  · intro habs hbare hc hne
    subst hc
    simp only [get_session_path]
    rw [joinPath_sessions fs name hbare, habs, hne]
    simp

/-- C6 witness: resolution on the concrete filesystem c6fs, data
directory /data and nothing on disk: the bare name default resolves into
the managed directory, the absolute name /tmp/foo.yml is returned
verbatim with checking off, and the bare name missing under checking
fails with SessionNotFoundError carrying the resolved path. -/
theorem C6_witness :
    get_session_path c6fs "default" false = .ok "/data/sessions/default.yml" ∧
    get_session_path c6fs "/tmp/foo.yml" false = .ok "/tmp/foo.yml" ∧
    get_session_path c6fs "missing" true =
      .error (.sessionNotFound "/data/sessions/missing.yml") := by
  refine ⟨?_, ?_, ?_⟩
  · have h := (C6_path_resolution c6fs "default" false).1
      (by decide) (by decide) (Or.inl rfl)
    rw [h]; decide
  · have h := (C6_path_resolution c6fs "/tmp/foo.yml" false).2.1
      (by decide) (Or.inl rfl)
    rw [h]; decide
  · have h := (C6_path_resolution c6fs "missing" true).2.2
      (by decide) (by decide) rfl (by decide)
    rw [h]; decide

/-- C7 counterexample: the claim states that Delete fails with
SessionError on any filesystem failure other than not-found and that no
raw lower-level error escapes the session-store boundary. On c7fs, where
the session file x.yml exists but its removal fails, delete raises the
raw OSError unwrapped, which is not a SessionError. -/
theorem C7_counterexample :
    delete c7fs "x" = .error (.raw (.osError "Permission denied")) ∧
    isSessionErrorExc (.raw (.osError "Permission denied")) = false ∧
    isOSErrorExc (.raw (.osError "Permission denied")) = true := by
  decide

/-- C7 amended: Delete fails with SessionNotFoundError when the session
does not exist and otherwise propagates the raw OSError of the removal
unwrapped; the command wrapper session_delete catches exactly that raw
OSError, rendering it as a CommandError, while SessionNotFoundError
passes through the command layer unmapped. -/
theorem C7_delete_error_contract (fs : DelFs) (name : String) :
    (∀ p, get_session_path fs.toFs name true = .error (.sessionNotFound p) →
      delete fs name = .error (.sessionNotFound p) ∧
      session_delete fs name = .error (.sessionNotFound p)) ∧
    (∀ path m, get_session_path fs.toFs name true = .ok path →
      fs.removeResult path = some m →
      delete fs name = .error (.raw (.osError m)) ∧
      session_delete fs name = .error (.commandError "Error while deleting session")) ∧
    (∀ path, get_session_path fs.toFs name true = .ok path →
      fs.removeResult path = none →
      delete fs name = .ok () ∧ session_delete fs name = .ok ()) := by
  refine ⟨?_, ?_, ?_⟩
  · intro p hp
    have hd : delete fs name = .error (.sessionNotFound p) := by
      unfold delete
      simp only [hp]
    refine ⟨hd, ?_⟩
    unfold session_delete
    rw [hd]
    rfl
  · intro path m hp hr
    have hd : delete fs name = .error (.raw (.osError m)) := by
      unfold delete
      simp only [hp, hr]
    refine ⟨hd, ?_⟩
    unfold session_delete
    rw [hd]
    rfl
  · intro path hp hr
    have hd : delete fs name = .ok () := by
      unfold delete
      simp only [hp, hr]
    refine ⟨hd, ?_⟩
    unfold session_delete
    rw [hd]

/-- C7 witness: the amended contract evaluated on concrete filesystems:
on c7fsEmpty the session gone does not exist, so both delete and
session_delete fail with SessionNotFoundError; on c7fs removal of the
existing session x fails, so delete raises the raw OSError and
session_delete renders it as a CommandError. -/
theorem C7_witness :
    (delete c7fsEmpty "gone" = .error (.sessionNotFound "/d/sessions/gone.yml") ∧
     session_delete c7fsEmpty "gone" =
       .error (.sessionNotFound "/d/sessions/gone.yml")) ∧
    (delete c7fs "x" = .error (.raw (.osError "Permission denied")) ∧
     session_delete c7fs "x" = .error (.commandError "Error while deleting session")) :=
  ⟨(C7_delete_error_contract c7fsEmpty "gone").1 "/d/sessions/gone.yml" (by decide),
   (C7_delete_error_contract c7fs "x").2.1 "/d/sessions/x.yml" "Permission denied"
     (by decide) (by decide)⟩

/-- C8: for every URL whose encoded form is ASCII (which toEncoded
guarantees, percent-encoding any other byte), the stored string written
by save decodes back through the encode and fromEncoded pair of load to a
URL whose encoded form is byte-for-byte identical to the original. -/
theorem C8_url_roundtrip (u : QUrl) (h : u.encoded.all (· < 128) = true) :
    ∃ s, urlStore u = .ok s ∧
      ∃ u2, urlRestore s = .ok u2 ∧ u2.encoded = u.encoded := by
  refine ⟨u.encoded, ?_, ⟨u.encoded⟩, ?_, rfl⟩
  · unfold urlStore decodeAscii
    rw [if_pos h]
  · unfold urlRestore encodeAscii
    rw [if_pos h]
    rfl

/-- C8 witness: the round trip evaluated on the percent-encoded example
URL of the spec. -/
theorem C8_witness :
    ∃ s, urlStore c8url = .ok s ∧
      ∃ u2, urlRestore s = .ok u2 ∧ u2.encoded = c8url.encoded :=
  C8_url_roundtrip c8url (by decide)

/-- C9: Load fails with SessionNotFoundError exactly when path resolution
does; it fails with SessionError wrapping the cause whenever reading,
text-decoding or parsing the session file fails (the exceptions the read
guard catches) and whenever injecting the history of a tab into a fresh
tab fails with ValueError; and any SessionError it raises arises from one
of these two wrap sites — in no other case does Load raise either
error. -/
theorem C9_load_error_contract (fs : LoadFs) (st : AppState) (name : String) :
    (∀ p, get_session_path fs.toFs name true = .error (.sessionNotFound p) →
        (load fs st name).2 = .error (.sessionNotFound p)) ∧
    (∀ p, (load fs st name).2 = .error (.sessionNotFound p) →
        get_session_path fs.toFs name true = .error (.sessionNotFound p)) ∧
    (∀ path e, get_session_path fs.toFs name true = .ok path →
        fs.readDoc path = .error e → readCaught e = true →
        (load fs st name).2 = .error (.sessionError e)) ∧
    (∀ c, (load fs st name).2 = .error (.sessionError c) →
        ∃ path, get_session_path fs.toFs name true = .ok path ∧
          ((fs.readDoc path = .error c ∧ readCaught c = true) ∨
           ∃ m, c = .valueError m)) ∧
    (∀ (td : TabData) (rest : List TabData) (w : LWin)
        (entries : List TabHistoryItem) (m : String),
        mkEntries td = .ok entries →
        load_history entries = .error (.valueError m) →
        (loadTabs (td :: rest) w).2 = .error (.sessionError (.valueError m))) := by
  refine ⟨?_, ?_, ?_, ?_, ?_⟩
  · intro p hp
    unfold load
    simp only [hp]
  · intro p hp
    cases hg : get_session_path fs.toFs name true with
    | error e0 =>
      unfold load at hp
      simp only [hg] at hp
      injection hp with h2
      exact congrArg Except.error h2
    | ok path =>
      unfold load at hp
      simp only [hg] at hp
      cases hrd : fs.readDoc path with
      | error e =>
        simp only [hrd] at hp
        by_cases hcg : readCaught e = true
        · rw [if_pos hcg] at hp
          injection hp with h2
          exact absurd h2 (by simp)
        · rw [if_neg hcg] at hp
          injection hp with h2
          exact absurd h2 (by simp)
      | ok doc =>
        simp only [hrd] at hp
        rcases loadWins_error_shape doc.windows true st _ hp with ⟨m, hm⟩ | ⟨pe, hpe⟩
        · exact absurd hm (by simp)
        · exact absurd hpe (by simp)
  · intro path e hg hrd hcg
    unfold load
    simp only [hg, hrd, hcg, if_true]
  · intro c hc4
    cases hg : get_session_path fs.toFs name true with
    | error e0 =>
      obtain ⟨q, hq⟩ := get_session_path_error _ _ _ _ hg
      subst hq
      unfold load at hc4
      simp only [hg] at hc4
      injection hc4 with h2
      exact absurd h2 (by simp)
    | ok path =>
      refine ⟨path, rfl, ?_⟩
      unfold load at hc4
      simp only [hg] at hc4
      cases hrd : fs.readDoc path with
      | error e =>
        simp only [hrd] at hc4
        by_cases hcg : readCaught e = true
        · rw [if_pos hcg] at hc4
          injection hc4 with h2
          injection h2 with h3
          exact Or.inl ⟨congrArg Except.error h3, h3 ▸ hcg⟩
        · rw [if_neg hcg] at hc4
          injection hc4 with h2
          exact absurd h2 (by simp)
      | ok doc =>
        simp only [hrd] at hc4
        rcases loadWins_error_shape doc.windows true st _ hc4 with ⟨m, hm⟩ | ⟨pe, hpe⟩
        · injection hm with hm2
          exact Or.inr ⟨m, hm2⟩
        · exact absurd hpe (by simp)
  · intro td rest w entries m hmk hlh
    unfold loadTabs
    simp only [hmk, hlh]

/-- C9 witness: the contract evaluated on the concrete filesystem c9fs
whose read yields a YAML parse error: loading the session s wraps it as
SessionError. -/
theorem C9_witness :
    (load c9fs ⟨[], none⟩ "s").2 = .error (.sessionError (.yamlError "bad document")) :=
  ((C9_load_error_contract c9fs ⟨[], none⟩ "s").2.2.1) "/d/sessions/s.yml"
    (.yamlError "bad document") (by decide) (by decide) (by decide)

/-- C10: Load is not atomic: the tab loop only ever appends to the
window it populates, so everything created before a failure stays; in
particular, when an initial segment of the stored tabs loads fine and the
next tab fails its history injection with ValueError, the loop stops with
SessionError, keeping every previously created tab with its entries plus
the freshly opened, still empty failing tab; and the window loop only
ever appends windows (when no window is reused), so previously created
windows stay as well — nothing is rolled back. -/
theorem C10_no_rollback :
    (∀ (tds : List TabData) (acc : LWin), ∃ d, (loadTabs tds acc).1 = acc ++ d) ∧
    (∀ (tds1 : List TabData) (td : TabData) (rest : List TabData) (acc res : LWin)
        (entries : List TabHistoryItem) (m : String),
      loadTabs tds1 acc = (res, .ok ()) → mkEntries td = .ok entries →
      load_history entries = .error (.valueError m) →
      loadTabs (tds1 ++ td :: rest) acc =
        (res ++ [[]], .error (.sessionError (.valueError m)))) ∧
    (∀ (doc : SessionData) (st : AppState), st.lastFocused = none →
      ∃ d, (loadDoc st doc).1.windows = st.windows ++ d) := by
  refine ⟨loadTabs_grows, ?_, ?_⟩
  · intro tds1 td rest acc res entries m h1 hmk hlh
    rw [loadTabs_append_ok tds1 acc res h1 (td :: rest)]
    unfold loadTabs
    simp only [hmk, hlh]
  · intro doc st hl
    exact loadWins_grows doc.windows true st hl

/-- C10 witness: the non-atomicity statement evaluated on concrete tabs:
the first stored tab loads its single entry, the second fails injection
with two active entries, and the resulting window keeps the loaded first
tab and the empty second tab next to the SessionError. -/
theorem C10_witness :
    loadTabs [c10tdA, c10tdB] [] =
      ([[c10eA], []], .error (.sessionError (.valueError "Multiple active items found"))) :=
  (C10_no_rollback).2.1 [c10tdA] c10tdB [] [] [[c10eA]] c10entsB
    "Multiple active items found" (by decide) (by decide) (by decide)

end Sessions
